import Mathlib

/-!
Verification of the microplugins plugin runtime (header-only C++ library).

This file gives a shallow embedding of the core components — `task`,
`tasks`, `storage`, the `plugins` kernel (idle sweep, `get_plugin`,
`unload_plugin`, `stop`) and the `shared_library` search/load routine —
and proves the behavioural claims about them.

Modelling conventions:
* timestamps are integers counted in minutes, so `micro::duration<minutes>(a, b)`
  becomes `b - a`;
* a task handler (`std::function`) is an opaque identifier wrapped in
  `Option` (`none` is the null function);
* a `std::shared_future` result handle is `Option Int`: `some h` is a
  valid handle for a launched handler, `none` the empty/invalid handle;
* `std::map` is a key-sorted association list with unique keys;
* run-time inputs the code reads from its environment (reference counts
  of `std::shared_ptr`, the `expiry_` flag written by the sweep thread,
  the filesystem and `dlopen`) are passed in explicitly as traces or
  oracle functions, and the C++ member functions become pure state
  transformers over those inputs.
-/

namespace Micro

/-- Value of `std::numeric_limits<int>::max()` for the 32-bit `int` the
library is compiled with. -/
def intMax : Int := 2147483647

/-- Model of `micro::task<Ts...>` (task.hpp): last-invocation clock,
name, help text, handler (`none` = null `std::function`) and the
once-flag.  The arity `sizeof...(Ts)` is a property of the containing
bucket and is passed explicitly where the code uses `max_args()`. -/
structure Task where
  clock : Int
  name : String
  help : String
  fn : Option Int
  is_once : Bool
deriving DecidableEq, Repr

/-- Model of the default-constructed `empty_task_` member of `tasks`
(used for out-of-range `operator[]` access): empty name and help, null
handler, clear once-flag. -/
def emptyTask : Task := ⟨0, "", "", none, false⟩

/-- Model of `task::idle()`: `micro::duration<micro::minutes>(clock_, now)`. -/
def Task.idle (now : Int) (t : Task) : Int := now - t.clock

/-- Model of `task::is_service()`: `max_args() == 1 && name_ == "service"`,
with the compile-time arity `ar` of the task's bucket passed explicitly. -/
def Task.is_service (ar : Nat) (t : Task) : Bool := ar == 1 && t.name == "service"

/-- Model of `task::run(args...)`: empty handle if the once-flag is set
or the handler is null, otherwise refresh `clock_` and launch the
handler asynchronously, returning the (valid) future. -/
def Task.run (now : Int) (t : Task) : Option Int × Task :=
  if t.is_once || t.fn.isNone then (none, t)
  else (t.fn, { t with clock := now })

/-- Model of `task::run_once(args...)`: like `run`, but sets the
once-flag (before the launch) on the successful path. -/
def Task.run_once (now : Int) (t : Task) : Option Int × Task :=
  if t.is_once || t.fn.isNone then (none, t)
  else (t.fn, { t with is_once := true, clock := now })

/-- The guard read of `task::run_once` in isolation: the test
`if (is_once_ || !fn_)` is one atomic load, separate from the later
store of the flag.  `true` means the caller proceeds to the launch. -/
def Task.runOnceTest (t : Task) : Bool := !(t.is_once || t.fn.isNone)

/-- The tail of `task::run_once` executed after a passed guard, with no
re-check: `is_once_ = true; clock_ = now;` then the asynchronous launch
of the handler.  `storage::run_once` runs the whole of `run_once` under
only a shared lock, so between one caller's guard read and its store
another caller may run its own guard read against the same state; an
interleaving `test_A; test_B; body_A; body_B` is therefore a legal
concurrent execution of two `run_once` calls. -/
def Task.runOnceBody (now : Int) (t : Task) : Option Int × Task :=
  (t.fn, { t with is_once := true, clock := now })

/-- Model of `task::clear_once()`. -/
def Task.clear_once (t : Task) : Task := { t with is_once := false }

/-- Key-sorted insertion, modelling `std::map::operator[]` assignment
(`subscribers_[nm] = ...`): replaces the mapping when the key exists. -/
def insertSorted {α : Type} (nm : String) (v : α) :
    List (String × α) → List (String × α)
  | [] => [(nm, v)]
  | (k, w) :: rest =>
    if nm < k then (nm, v) :: (k, w) :: rest
    else if nm = k then (nm, v) :: rest
    else (k, w) :: insertSorted nm v rest

/-- Model of `micro::tasks<Ts...>` (the `std::map` variant): one arity
bucket, a name-sorted association list of tasks with unique keys. -/
structure Tasks where
  subscribers : List (String × Task)
deriving DecidableEq, Repr

/-- Model of the default-constructed empty `tasks` container. -/
def emptyTasks : Tasks := ⟨[]⟩

/-- Model of `tasks::subscribe(nm, t, hlp)`: inserts a fresh task only
when the name is non-empty, the name is not already present, and the
handler is non-null; otherwise does nothing. -/
def Tasks.subscribe (now : Int) (nm : String) (fn : Option Int) (hlp : String)
    (ts : Tasks) : Tasks :=
  if !nm.isEmpty && (ts.subscribers.lookup nm).isNone && fn.isSome then
    ⟨insertSorted nm ⟨now, nm, hlp, fn, false⟩ ts.subscribers⟩
  else ts

/-- Model of `tasks::unsubscribe(const std::string&)`: erase the entry
found for the name, if any. -/
def Tasks.unsubscribeName (nm : String) (ts : Tasks) : Tasks :=
  ⟨ts.subscribers.eraseP (fun p => p.1 == nm)⟩

/-- Model of `tasks::unsubscribe(std::size_t)`: erase the i-th entry in
map order when in range. -/
def Tasks.unsubscribeIdx (i : Nat) (ts : Tasks) : Tasks :=
  if i < ts.subscribers.length then ⟨ts.subscribers.eraseIdx i⟩ else ts

/-- Model of `tasks::operator[](const std::string&)`: the named task, or
`empty_task_` when absent. -/
def Tasks.get (nm : String) (ts : Tasks) : Task :=
  (ts.subscribers.lookup nm).getD emptyTask

/-- Model of `tasks::operator[](std::size_t)`: the i-th task in map
order, or `empty_task_` when out of range. -/
def Tasks.getIdx (i : Nat) (ts : Tasks) : Task :=
  ((ts.subscribers.get? i).map Prod.snd).getD emptyTask

/-- Model of `tasks::has(const std::string&)`. -/
def Tasks.hasName (nm : String) (ts : Tasks) : Bool :=
  (ts.subscribers.lookup nm).isSome

/-- Model of `tasks::count()`. -/
def Tasks.count (ts : Tasks) : Nat := ts.subscribers.length

/-- Model of `tasks::clear_once()`: clears the once-flag of every task
in the container. -/
def Tasks.clear_once (ts : Tasks) : Tasks :=
  ⟨ts.subscribers.map (fun p => (p.1, p.2.clear_once))⟩

/-- Model of the accumulation loop shared by `tasks::idle()` and
`storage::idle()`: starting from `ret`, each candidate value `c` lowers
the running minimum, and as soon as the minimum hits `0` the loop
returns `0` early. -/
def idleFold : List Int → Int → Int
  | [], ret => ret
  | c :: rest, ret =>
    if c < ret then (if c = 0 then 0 else idleFold rest c) else idleFold rest ret

/-- Model of `tasks::idle()`: minimum task idle over the container,
starting from `std::numeric_limits<int>::max()`. -/
def Tasks.idle (now : Int) (ts : Tasks) : Int :=
  idleFold (ts.subscribers.map (fun p => p.2.idle now)) intMax

/-- Model of `micro::storage<L>` (the template variant): the compile-time
arity limit `L = MAX_PLUGINS_ARGS` (`max_args()`), version, name and the
tuple of arity buckets `tasks<>, tasks<any>, ..., tasks<any x L>`
(so `buckets` has length `L + 1`, bucket `i` holding the arity-`i`
tasks). -/
structure Storage where
  maxArgs : Nat
  version : Int
  name : String
  buckets : List Tasks
deriving DecidableEq, Repr

/-- Bucket access `std::get<I>(tasks_)`. -/
def Storage.bucket (I : Nat) (s : Storage) : Tasks :=
  s.buckets.getD I emptyTasks

/-- Model of `storage::subscribe<I>(nm, t, hlp)`: guarded at compile
time by `static_assert(L > 0 && I < L)`, then delegates to the bucket. -/
def Storage.subscribe (I : Nat) (now : Int) (nm : String) (fn : Option Int)
    (hlp : String) (s : Storage) : Storage :=
  if I < s.maxArgs then
    { s with buckets := s.buckets.set I ((s.bucket I).subscribe now nm fn hlp) }
  else s

/-- Model of `storage::unsubscribe<I>(nm)` for a name argument: refuses
when the task found by `operator[]` satisfies `is_service() && is_once()`,
otherwise delegates to the bucket's erase. -/
def Storage.unsubscribeName (I : Nat) (nm : String) (s : Storage) : Storage :=
  if I < s.maxArgs then
    if ((s.bucket I).get nm).is_service I && ((s.bucket I).get nm).is_once then s
    else { s with buckets := s.buckets.set I ((s.bucket I).unsubscribeName nm) }
  else s

/-- Model of `storage::unsubscribe<I>(nm)` for an index argument: same
guard, looked up positionally. -/
def Storage.unsubscribeIdx (I : Nat) (i : Nat) (s : Storage) : Storage :=
  if I < s.maxArgs then
    if ((s.bucket I).getIdx i).is_service I && ((s.bucket I).getIdx i).is_once then s
    else { s with buckets := s.buckets.set I ((s.bucket I).unsubscribeIdx i) }
  else s

/-- Model of `storage::has<I>(nm)` for a name argument. -/
def Storage.hasTask (I : Nat) (nm : String) (s : Storage) : Bool :=
  if I < s.maxArgs then (s.bucket I).hasName nm else false

/-- Model of `storage::clear_once()` via `clear_once_impl`: clears the
once-flag in every bucket of the tuple. -/
def Storage.clear_once (s : Storage) : Storage :=
  { s with buckets := s.buckets.map Tasks.clear_once }

/-- Model of `storage::idle<I>()`: the bucket's idle when `I < L`
(`if constexpr`), otherwise the constant `0` of the `else` branch. -/
def Storage.idleAt (I : Nat) (now : Int) (s : Storage) : Int :=
  if I < s.maxArgs then (s.bucket I).idle now else 0

/-- Model of the aggregate `storage::idle()`: the hard-coded chain over
`idle<0>()` .. `idle<6>()` with the same minimum/early-zero accumulation
as `tasks::idle()`. -/
def Storage.idle (now : Int) (s : Storage) : Int :=
  idleFold ((List.range 7).map (fun I => s.idleAt I now)) intMax

/-- Model of a loaded plugin instance (`micro::iplugin`): its running
flag `do_work_`, its embedded task storage, and — as an environment
observation — the current `use_count()` of the kernel table's
`std::shared_ptr` to it (the code itself never writes this field). -/
structure PluginRec where
  do_work : Bool
  store : Storage
  useCount : Nat
deriving DecidableEq, Repr

/-- Model of the `micro::plugins` kernel state: running flag `do_work_`,
error code, `max_idle_` (minutes), the kernel's own task storage and the
plugin table `plugins_` (a name-sorted map of loaded plugins). -/
structure Kernel where
  do_work : Bool
  error : Int
  max_idle : Int
  store : Storage
  plugins : List (String × PluginRec)
deriving DecidableEq, Repr

/-- Eviction condition tested by one sweep iteration of
`plugins::loop_cb` on a table entry:
`plugin->idle() >= max_idle_ && !plugin->has<1>("service")`. -/
def PluginRec.evictable (maxIdle now : Int) (p : PluginRec) : Bool :=
  decide (maxIdle ≤ p.store.idle now) && !(p.store.hasTask 1 "service")

/-- Model of the eviction loop of `plugins::loop_cb`:
`for (it = begin; it != end; ++it) { if (cond) plugins_.erase(it++); }`.
On an erase, `it++` already advances the iterator and the `for` header's
`++it` advances it again, so the entry immediately after each erased one
is skipped that cycle (kept without being examined); and when the erased
entry was the last one, the header increments the end iterator —
undefined behavior, modelled as `none` (no defined resulting state). -/
def sweepGo (maxIdle now : Int) :
    List (String × PluginRec) → Option (List (String × PluginRec))
  | [] => some []
  | e :: rest =>
    if e.2.evictable maxIdle now then
      match rest with
      | [] => none
      | e2 :: rest2 => (sweepGo maxIdle now rest2).map (fun r => e2 :: r)
    else (sweepGo maxIdle now rest).map (fun r => e :: r)

/-- Model of one timed body of `plugins::loop_cb` (one idle-sweep
cycle): when `max_idle_` is `0` the `continue` skips the whole check,
otherwise the erase loop of `sweepGo` runs over the table (with `none`
for the undefined-behavior execution). -/
def Kernel.sweep (now : Int) (k : Kernel) : Option Kernel :=
  if k.max_idle = 0 then some k
  else (sweepGo k.max_idle now k.plugins).map (fun tbl => { k with plugins := tbl })

/-- Iterated sweep cycles, one per observation instant; undefined
behavior in any cycle poisons the rest. -/
def Kernel.sweepN (nows : List Int) (k : Kernel) : Option Kernel :=
  nows.foldl (fun acc n => acc.bind (Kernel.sweep n)) (some k)


/-- Result of `plugins::get_plugin(name)`: the returned shared pointer
(`none` models `nullptr`), the kernel state afterwards, and whether a
detached `service_plugin_cb` thread was spawned. -/
structure LoadResult where
  ret : Option PluginRec
  kernel : Kernel
  spawned : Bool
deriving DecidableEq, Repr

/-- Model of `plugins::get_plugin(const std::string&)`.  The `env`
argument stands for the outcome of `shared_library` loading plus the
`import_plugin` factory: `some pl` when the library loaded, the symbol
resolved and the factory returned a non-null plugin `pl`; `none` when
any of those steps failed.  On an arity (`max_args`) mismatch the code
only logs — the plugin is not registered and no service thread is
spawned, but the non-null `ret` is still returned to the caller. -/
def Kernel.get_plugin (nm : String) (env : Option PluginRec) (k : Kernel) :
    LoadResult :=
  if !k.do_work then ⟨none, k, false⟩
  else
    match k.plugins.lookup nm with
    | some p => ⟨some p, k, false⟩
    | none =>
      match env with
      | none => ⟨none, k, false⟩
      | some pl =>
        if pl.store.maxArgs = k.store.maxArgs then
          ⟨some pl, { k with plugins := insertSorted nm pl k.plugins }, true⟩
        else ⟨some pl, k, false⟩

/-- Point-update of the plugin table (the in-place write
`plugin->do_work_ = false` through the table's shared pointer). -/
def setPlugin (nm : String) (pl : PluginRec) (tbl : List (String × PluginRec)) :
    List (String × PluginRec) :=
  tbl.map (fun e => if e.1 = nm then (nm, pl) else e)

/-- Model of `plugins::unload_plugin(const std::string&)`.  `counts` is
the trace of `use_count()` values the busy-wait loop observes, one per
poll.  The returned flag is `true` when the call has returned within the
trace and `false` when it is still blocked in the wait loop (the loop
has no timeout).  On the found path the plugin's running flag is cleared
first, then the entry is erased at the first observation that is not
greater than 1. -/
def Kernel.unload_plugin (nm : String) (counts : List Nat) (k : Kernel) :
    Kernel × Bool :=
  if !k.do_work then (k, true)
  else
    match k.plugins.lookup nm with
    | none => (k, true)
    | some pl =>
      let k' := { k with plugins := setPlugin nm { pl with do_work := false } k.plugins }
      if counts.any (fun c => !(decide (1 < c))) then
        ({ k' with plugins := k'.plugins.eraseP (fun e => e.1 == nm) }, true)
      else (k', false)

/-- Model of one pass of the `for` loop inside `plugins::unload_plugins`
(called by `stop`): each visited entry has its running flag cleared and
is erased when its observed `use_count()` is not greater than 1 (kept
and logged otherwise).  The loop is
`for (it = begin; it != end; ++it) { ...; else plugins_.erase(it++); }`,
so the entry after each erased one is skipped that pass (kept with its
flag untouched), and erasing the last entry makes the header increment
the end iterator — undefined behavior, modelled as `none`. -/
def unloadPass (cnt : String → Nat) :
    List (String × PluginRec) → Option (List (String × PluginRec))
  | [] => some []
  | e :: rest =>
    if 1 < cnt e.1 then
      (unloadPass cnt rest).map (fun r => (e.1, { e.2 with do_work := false }) :: r)
    else
      match rest with
      | [] => none
      | e2 :: rest2 => (unloadPass cnt rest2).map (fun r => e2 :: r)

/-- Model of the `while (!empty) { pass; sleep }` loop of
`plugins::unload_plugins`, driven by a trace of per-pass `use_count()`
observations; undefined behavior in a pass poisons the drain. -/
def unloadAll (rounds : List (String → Nat)) (tbl : List (String × PluginRec)) :
    Option (List (String × PluginRec)) :=
  rounds.foldl (fun acc cnt => acc.bind (fun t => if t.isEmpty then some t else unloadPass cnt t))
    (some tbl)

/-- Model of `plugins::stop()`.  `expiryObs` is the trace of reads of
the `expiry_` flag (written by the sweep thread when it exits after
seeing `do_work_ == false`); `rounds` drives `unload_plugins` as above.
The result is `none` when the call does not return normally — still
blocked waiting for the sweep thread, still draining when the trace
ends, or undefined behavior inside the drain loop — and `some k'` once
it has returned.  A kernel that is not running returns unchanged. -/
def Kernel.stop (expiryObs : List Bool) (rounds : List (String → Nat))
    (k : Kernel) : Option Kernel :=
  if !k.do_work then some k
  else if expiryObs.any id then
    match unloadAll rounds k.plugins with
    | none => none
    | some tbl =>
      if tbl.isEmpty then
        some { k with do_work := false, plugins := tbl, store := k.store.clear_once }
      else none
  else none

/-! Model of `micro::shared_library` (the `std_filesystem` variant of
shared_library.hpp), for the non-Windows, non-Apple (`*nix`) branch of
`load_dll`. -/

/-- Character class of the `filter_version` regex fragment
`[._\-0-9]{0,12}`. -/
def isVerChar (c : Char) : Bool := c = '.' || c = '_' || c = '-' || c.isDigit

/-- Test whether a character list matches `[._\-0-9]{0,12}` in full. -/
def verSuffix (cs : List Char) : Bool :=
  decide (cs.length ≤ 12) && cs.all isVerChar

/-- Test whether a character list matches the regex fragment
`[._\-0-9]{0,12}.so[._\-0-9]{0,12}` in full (the `fuel` argument bounds
the first version run at 12 characters). -/
def soTail (fuel : Nat) (cs : List Char) : Bool :=
  (match cs with
   | '.' :: 's' :: 'o' :: rest => verSuffix rest
   | _ => false) ||
  (match fuel, cs with
   | Nat.succ f, c :: rest => isVerChar c && soTail f rest
   | _, _ => false)

/-- Substring test used for `name_lib.find(".so") == std::string::npos`. -/
def containsSeq (needle : List Char) : List Char → Bool
  | [] => needle.isPrefixOf ([] : List Char)
  | c :: rest => needle.isPrefixOf (c :: rest) || containsSeq needle rest

/-- Model of the `*nix` logical-name adjustment in `load_dll`: prefix
`lib` when the name does not already start with it
(`name_lib.find("lib") != 0`). -/
def libName (nm : String) : String :=
  if "lib".toList.isPrefixOf nm.toList then nm else "lib" ++ nm

/-- Model of `std::regex_match(fname, name_lib + filter_str)` for the
`*nix` branch: when the (possibly `lib`-prefixed) name already contains
`.so` the pattern is `name_lib[._\-0-9]{0,12}`, otherwise it is
`name_lib[._\-0-9]{0,12}.so[._\-0-9]{0,12}`.  Faithful for logical
names without regex metacharacters. -/
def nameMatches (name_lib : String) (fname : String) : Bool :=
  let nl := name_lib.toList
  let fl := fname.toList
  if containsSeq ".so".toList nl then
    nl.isPrefixOf fl && verSuffix (fl.drop nl.length)
  else
    nl.isPrefixOf fl && soTail 12 (fl.drop nl.length)

/-- Token accumulator for `explode` (split on `:`, dropping empty
tokens), mirroring the `find_first_not_of` / `find_first_of` loop. -/
def explodeGo (acc : List Char) : List Char → List (List Char)
  | [] => if acc.isEmpty then [] else [acc.reverse]
  | c :: rest =>
    if c = ':' then
      if acc.isEmpty then explodeGo [] rest else acc.reverse :: explodeGo [] rest
    else explodeGo (c :: acc) rest

/-- Model of `shared_library::explode(str, ":")`. -/
def explode (s : String) : List String :=
  (explodeGo [] s.toList).map (fun cs => String.mk cs)

/-- Backslash-to-slash normalisation applied to every candidate path. -/
def slashify (s : String) : String :=
  String.mk (s.toList.map (fun c => if c = '\\' then '/' else c))

/-- Value of the fixed conventional search list in `load_dll`. -/
def fixedPathStr : String := ".:lib:plugins:../lib:../plugins:../lib/plugins"

/-- Candidate directory list built by `load_dll` (non-Windows branch),
in the order the loops visit them: the caller list merged with the fixed
conventional list (`env_path`), then the `PATH` directories (each with
the `../lib/` suffix the index-range test appends), then the caller x
`PATH` combinations.  Each directory carries its trailing `/` and the
backslash normalisation. -/
def candidateDirs (path0 pathEnv : String) : List String :=
  let paths0 := explode path0
  let paths2 := explode pathEnv
  let env_path := if path0.isEmpty then fixedPathStr else path0 ++ ":" ++ fixedPathStr
  let paths1 := explode env_path
  let combos := paths0.flatMap (fun p0 => paths2.map (fun p2 => p2 ++ "/" ++ "../lib/" ++ p0))
  (paths1.map (fun d => slashify (d ++ "/")))
    ++ (paths2.map (fun d => slashify (d ++ "/" ++ "../lib/")))
    ++ (combos.map (fun d => slashify (d ++ "/")))

/-- Environment oracle for `load_dll`: the directory listing
(`none` when `is_directory` fails; entries are `(filename, is_regular_file)`
in iteration order), the success of `dlopen` on a full path, and the
process `PATH` variable. -/
structure FsEnv where
  dirs : String → Option (List (String × Bool))
  loadable : String → Bool
  pathEnv : String

/-- Inner directory-entry loop of `load_dll`: the first regular entry
whose filename matches the pattern and whose full path loads. -/
def tryDir (env : FsEnv) (pat : String → Bool) (dir : String) : Option String :=
  match env.dirs dir with
  | none => none
  | some entries =>
    entries.findSome? (fun e =>
      if e.2 && pat e.1 && env.loadable (dir ++ e.1) then some (dir ++ e.1) else none)

/-- Model of `shared_library::load_dll` (non-Windows branch): the outer
loop over candidate directories, returning the resolved path of the
first entry that matches and loads. -/
def load_dll (name0 path0 : String) (env : FsEnv) : Option String :=
  (candidateDirs path0 env.pathEnv).findSome? (tryDir env (nameMatches (libName name0)))

/-- Observable state of a `shared_library` object: `is_loaded()` and
`filename()`. -/
structure SharedLib where
  loaded : Bool
  filename : String
deriving DecidableEq, Repr

/-- Model of `shared_library::load` on a fresh object: success and the
recorded resolved path of `load_dll`, or the unloaded state. -/
def SharedLib.load (name0 path0 : String) (env : FsEnv) : SharedLib :=
  match load_dll name0 path0 env with
  | some f => ⟨true, f⟩
  | none => ⟨false, ""⟩

/-- Flattened list of all `(directory, entry)` successes of the
`load_dll` search, in visiting order. -/
def loadHits (name0 path0 : String) (env : FsEnv) : List String :=
  (candidateDirs path0 env.pathEnv).flatMap (fun d =>
    match env.dirs d with
    | none => []
    | some entries =>
      entries.filterMap (fun e =>
        if e.2 && nameMatches (libName name0) e.1 && env.loadable (d ++ e.1) then
          some (d ++ e.1)
        else none))

/-! Helper lemmas. -/

theorem set_getD_self {α : Type} (l : List α) (i : Nat) (d : α) :
    l.set i (l.getD i d) = l := by
  induction l generalizing i with
  | nil => simp
  | cons a t ih =>
    cases i with
    | zero => simp [List.getD]
    | succ j => simpa [List.getD] using ih j

theorem getD_set_self {α : Type} (l : List α) (i : Nat) (x d : α)
    (h : i < l.length) : (l.set i x).getD i d = x := by
  induction l generalizing i with
  | nil => simp at h
  | cons a t ih =>
    cases i with
    | zero => simp [List.getD]
    | succ j =>
      simp only [List.length_cons, Nat.succ_lt_succ_iff] at h
      simpa [List.getD] using ih j h

theorem lookup_none_iff_not_mem {α : Type} (nm : String) (l : List (String × α)) :
    l.lookup nm = none ↔ nm ∉ l.map Prod.fst := by
  induction l with
  | nil => simp
  | cons p t ih =>
    obtain ⟨k, v⟩ := p
    by_cases h : nm = k
    · subst h; simp [List.lookup]
    · simp [List.lookup, h, ih, beq_false_of_ne h]

theorem mem_keys_insertSorted {α : Type} {x nm : String} {v : α} :
    ∀ {l : List (String × α)},
      x ∈ (insertSorted nm v l).map Prod.fst → x = nm ∨ x ∈ l.map Prod.fst := by
  intro l
  induction l with
  | nil => simp [insertSorted]
  | cons p t ih =>
    obtain ⟨k, w⟩ := p
    simp only [insertSorted]
    by_cases h1 : nm < k
    · intro hx; simp only [if_pos h1, List.map_cons, List.mem_cons] at hx
      rcases hx with rfl | rfl | hx
      · left; rfl
      · right; simp
      · right; simp [hx]
    · by_cases h2 : nm = k
      · intro hx; simp only [if_neg h1, if_pos h2, List.map_cons, List.mem_cons] at hx
        subst h2; tauto
      · simp only [if_neg h1, if_neg h2, List.map_cons, List.mem_cons]
        rintro (rfl | hx)
        · right; simp
        · rcases ih hx with rfl | hx2
          · left; rfl
          · right; simp [hx2]

theorem nodup_keys_insertSorted {α : Type} (nm : String) (v : α) :
    ∀ (l : List (String × α)), (l.map Prod.fst).Nodup → l.lookup nm = none →
      ((insertSorted nm v l).map Prod.fst).Nodup := by
  intro l
  induction l with
  | nil => simp [insertSorted]
  | cons p t ih =>
    obtain ⟨k, w⟩ := p
    intro hnd hlk
    rw [lookup_none_iff_not_mem] at hlk
    simp only [List.map_cons, List.mem_cons, not_or] at hlk
    obtain ⟨hne, hnotmem⟩ := hlk
    simp only [List.map_cons, List.nodup_cons] at hnd
    obtain ⟨hk, hndt⟩ := hnd
    simp only [insertSorted]
    by_cases h1 : nm < k
    · simp only [if_pos h1, List.map_cons, List.nodup_cons, List.mem_cons, not_or]
      exact ⟨⟨hne, hnotmem⟩, hk, hndt⟩
    · rw [if_neg h1, if_neg hne]
      simp only [List.map_cons, List.nodup_cons]
      refine ⟨fun hmem => ?_, ih hndt ((lookup_none_iff_not_mem nm t).mpr hnotmem)⟩
      rcases mem_keys_insertSorted hmem with h | h
      · exact hne h.symm
      · exact hk h

theorem lookup_eraseP_self {α : Type} (nm : String) :
    ∀ (l : List (String × α)), (l.map Prod.fst).Nodup →
      (l.eraseP (fun p => p.1 == nm)).lookup nm = none := by
  intro l
  induction l with
  | nil => simp
  | cons p t ih =>
    obtain ⟨k, v⟩ := p
    intro hnd
    simp only [List.map_cons, List.nodup_cons] at hnd
    obtain ⟨hk, hndt⟩ := hnd
    by_cases h : k = nm
    · subst h
      simp only [List.eraseP_cons, beq_self_eq_true, cond_true]
      exact (lookup_none_iff_not_mem k t).mpr hk
    · simp only [List.eraseP_cons, beq_false_of_ne h, cond_false, List.lookup,
        beq_false_of_ne (Ne.symm h)]
      exact ih hndt

theorem idleFold_all_eq (r : Int) :
    ∀ (l : List Int), (∀ x ∈ l, x = r) → idleFold l r = r := by
  intro l
  induction l with
  | nil => simp [idleFold]
  | cons c t ih =>
    intro h
    have hc : c = r := h c (by simp)
    subst hc
    simp only [idleFold, lt_self_iff_false, if_false]
    exact ih (fun x hx => h x (by simp [hx]))

theorem findSome?_eq_head?_filterMap {α β : Type} (f : α → Option β) :
    ∀ (l : List α), l.findSome? f = (l.filterMap f).head? := by
  intro l
  induction l with
  | nil => simp
  | cons a t ih =>
    cases hfa : f a with
    | none => simp only [List.findSome?_cons, List.filterMap_cons, hfa]; exact ih
    | some b => simp only [List.findSome?_cons, List.filterMap_cons, hfa]; rfl

theorem head?_flatMap {α β : Type} (g : α → List β) :
    ∀ (l : List α), (l.flatMap g).head? = l.findSome? (fun a => (g a).head?) := by
  intro l
  induction l with
  | nil => simp
  | cons a t ih =>
    cases hg : g a with
    | nil => simp [List.flatMap_cons, List.findSome?_cons, hg, ih]
    | cons b bs => simp [List.flatMap_cons, List.findSome?_cons, hg]

theorem explodeGo_append (b : List Char) :
    ∀ (a acc : List Char),
      explodeGo acc (a ++ ':' :: b) = explodeGo acc a ++ explodeGo [] b := by
  intro a
  induction a with
  | nil =>
    intro acc
    by_cases h : acc.isEmpty <;> simp [explodeGo, h]
  | cons c t ih =>
    intro acc
    by_cases h : c = ':'
    · subst h
      by_cases h2 : acc.isEmpty <;> simp [explodeGo, h2, ih]
    · simp [explodeGo, h, ih]

theorem explode_append (a b : String) :
    explode (a ++ ":" ++ b) = explode a ++ explode b := by
  have hdata : (a ++ ":" ++ b).toList = a.toList ++ ':' :: b.toList := by
    simp [String.toList, String.data_append]
  simp [explode, hdata, explodeGo_append]

theorem tasks_subscribe_present_noop (ts : Tasks) (now : Int) (nm : String)
    (fn : Option Int) (hlp : String) (t0 : Task)
    (h : ts.subscribers.lookup nm = some t0) :
    ts.subscribe now nm fn hlp = ts := by
  simp [Tasks.subscribe, h]

theorem keys_setPlugin (nm : String) (pl : PluginRec) :
    ∀ (l : List (String × PluginRec)),
      (setPlugin nm pl l).map Prod.fst = l.map Prod.fst := by
  intro l
  induction l with
  | nil => rfl
  | cons e t ih =>
    obtain ⟨a, v⟩ := e
    by_cases h : a = nm
    · subst h
      simp only [setPlugin, List.map_cons] at ih ⊢
      simp [ih]
    · simp only [setPlugin, List.map_cons] at ih ⊢
      simp [h, ih]

theorem lookup_setPlugin_self (nm : String) (pl' : PluginRec) :
    ∀ (l : List (String × PluginRec)) (pl : PluginRec),
      l.lookup nm = some pl → (setPlugin nm pl' l).lookup nm = some pl' := by
  intro l
  induction l with
  | nil => intro pl h; simp at h
  | cons e t ih =>
    intro pl h
    obtain ⟨k, v⟩ := e
    by_cases hk : k = nm
    · subst hk
      have hcons : setPlugin k pl' ((k, v) :: t) = (k, pl') :: setPlugin k pl' t := by
        simp [setPlugin]
      rw [hcons]
      simp [List.lookup]
    · have hl : t.lookup nm = some pl := by
        simpa [List.lookup, beq_false_of_ne (Ne.symm hk)] using h
      have hcons : setPlugin nm pl' ((k, v) :: t) = (k, v) :: setPlugin nm pl' t := by
        simp [setPlugin, hk]
      rw [hcons]
      simp only [List.lookup, beq_false_of_ne (Ne.symm hk)]
      exact ih pl hl

theorem run_once_eq_test_body (t : Task) (now : Int) :
    t.run_once now = if t.runOnceTest then t.runOnceBody now else (none, t) := by
  unfold Task.run_once Task.runOnceTest Task.runOnceBody
  by_cases h : (t.is_once || t.fn.isNone) = true
  · simp [h]
  · simp only [Bool.not_eq_true] at h
    simp [h]

theorem foldl_bind_none {α β : Type} (f : Option β → α → Option β)
    (hf : ∀ a, f none a = none) :
    ∀ l : List α, List.foldl f none l = none := by
  intro l
  induction l with
  | nil => rfl
  | cons a t ih => rw [List.foldl_cons, hf]; exact ih

theorem sweepGo_keep (mi now : Int) (e : String × PluginRec)
    (rest : List (String × PluginRec)) (hev : e.2.evictable mi now = false) :
    sweepGo mi now (e :: rest) = (sweepGo mi now rest).map (fun r => e :: r) := by
  cases rest <;> simp [sweepGo, hev]

theorem sweepGo_evict_nil (mi now : Int) (e : String × PluginRec)
    (hev : e.2.evictable mi now = true) :
    sweepGo mi now [e] = none := by
  simp [sweepGo, hev]

theorem sweepGo_evict_cons (mi now : Int) (e e2 : String × PluginRec)
    (rest2 : List (String × PluginRec)) (hev : e.2.evictable mi now = true) :
    sweepGo mi now (e :: e2 :: rest2)
      = (sweepGo mi now rest2).map (fun r => e2 :: r) := by
  simp [sweepGo, hev]

theorem unloadPass_keep (cnt : String → Nat) (e : String × PluginRec)
    (rest : List (String × PluginRec)) (hc : 1 < cnt e.1) :
    unloadPass cnt (e :: rest)
      = (unloadPass cnt rest).map
          (fun r => (e.1, { e.2 with do_work := false }) :: r) := by
  cases rest <;> simp [unloadPass, hc]

theorem unloadPass_erase_nil (cnt : String → Nat) (e : String × PluginRec)
    (hc : ¬1 < cnt e.1) :
    unloadPass cnt [e] = none := by
  simp [unloadPass, hc]

theorem unloadPass_erase_cons (cnt : String → Nat) (e e2 : String × PluginRec)
    (rest2 : List (String × PluginRec)) (hc : ¬1 < cnt e.1) :
    unloadPass cnt (e :: e2 :: rest2)
      = (unloadPass cnt rest2).map (fun r => e2 :: r) := by
  simp [unloadPass, hc]

theorem sweepGoSoundAux (mi now : Int) :
    ∀ (n : Nat) (l r : List (String × PluginRec)), l.length ≤ n →
      sweepGo mi now l = some r →
      (∀ e ∈ r, e ∈ l) ∧
      (∀ e ∈ l, e ∉ r → e.2.evictable mi now = true) := by
  intro n
  induction n with
  | zero =>
    intro l r hlen h
    have hl : l = [] := List.eq_nil_of_length_eq_zero (Nat.le_zero.mp hlen)
    subst hl
    have hr : r = [] := (Option.some.inj h).symm
    subst hr
    exact ⟨by simp, by simp⟩
  | succ n ih =>
    intro l r hlen h
    cases l with
    | nil =>
      have hr : r = [] := (Option.some.inj h).symm
      subst hr
      exact ⟨by simp, by simp⟩
    | cons e rest =>
      by_cases hev : e.2.evictable mi now = true
      · cases rest with
        | nil =>
          rw [sweepGo_evict_nil mi now e hev] at h
          exact Option.noConfusion h
        | cons e2 rest2 =>
          rw [sweepGo_evict_cons mi now e e2 rest2 hev] at h
          rcases Option.map_eq_some'.mp h with ⟨r2, hr2, rfl⟩
          have hlen2 : rest2.length ≤ n := by
            simp only [List.length_cons] at hlen; omega
          rcases ih rest2 r2 hlen2 hr2 with ⟨hsub, hrem⟩
          constructor
          · intro x hx
            rcases List.mem_cons.mp hx with rfl | hx2
            · simp
            · simp [List.mem_cons, hsub x hx2]
          · intro x hx hnx
            rcases List.mem_cons.mp hx with rfl | hx2
            · exact hev
            · rcases List.mem_cons.mp hx2 with rfl | hx3
              · exact absurd (List.mem_cons_self x r2) hnx
              · exact hrem x hx3 (fun hc => hnx (List.mem_cons_of_mem _ hc))
      · have hev' : e.2.evictable mi now = false := by
          cases hx : e.2.evictable mi now
          · rfl
          · exact absurd hx hev
        rw [sweepGo_keep mi now e rest hev'] at h
        rcases Option.map_eq_some'.mp h with ⟨r2, hr2, rfl⟩
        have hlen2 : rest.length ≤ n := by
          simp only [List.length_cons] at hlen; omega
        rcases ih rest r2 hlen2 hr2 with ⟨hsub, hrem⟩
        constructor
        · intro x hx
          rcases List.mem_cons.mp hx with rfl | hx2
          · simp
          · simp [List.mem_cons, hsub x hx2]
        · intro x hx hnx
          rcases List.mem_cons.mp hx with rfl | hx2
          · exact absurd (List.mem_cons_self x r2) hnx
          · exact hrem x hx2 (fun hc => hnx (List.mem_cons_of_mem _ hc))

theorem sweepGo_sound (mi now : Int) (l r : List (String × PluginRec))
    (h : sweepGo mi now l = some r) :
    (∀ e ∈ r, e ∈ l) ∧
    (∀ e ∈ l, e ∉ r → e.2.evictable mi now = true) :=
  sweepGoSoundAux mi now l.length l r le_rfl h

theorem unloadPass_some_ne_nil (cnt : String → Nat)
    (l r : List (String × PluginRec)) (hl : l ≠ [])
    (h : unloadPass cnt l = some r) : r ≠ [] := by
  match l with
  | [] => exact absurd rfl hl
  | e :: rest =>
    by_cases hc : 1 < cnt e.1
    · rw [unloadPass_keep cnt e rest hc] at h
      rcases Option.map_eq_some'.mp h with ⟨r2, _, rfl⟩
      simp
    · cases rest with
      | nil =>
        rw [unloadPass_erase_nil cnt e hc] at h
        exact Option.noConfusion h
      | cons e2 rest2 =>
        rw [unloadPass_erase_cons cnt e e2 rest2 hc] at h
        rcases Option.map_eq_some'.mp h with ⟨r2, _, rfl⟩
        simp

theorem unloadAll_some_ne_nil (rounds : List (String → Nat)) :
    ∀ (tbl r : List (String × PluginRec)), tbl ≠ [] →
      unloadAll rounds tbl = some r → r ≠ [] := by
  induction rounds with
  | nil =>
    intro tbl r htbl h
    have : r = tbl := by simpa [unloadAll] using h.symm
    subst this
    exact htbl
  | cons cnt rest ih =>
    intro tbl r htbl h
    have hemp : tbl.isEmpty = false := by
      cases tbl with
      | nil => exact absurd rfl htbl
      | cons a t => rfl
    rw [unloadAll, List.foldl_cons] at h
    have hstep : (some tbl).bind
        (fun t => if t.isEmpty then some t else unloadPass cnt t)
        = unloadPass cnt tbl := by
      simp only [Option.some_bind, hemp, Bool.false_eq_true, if_false]
    rw [hstep] at h
    cases hp : unloadPass cnt tbl with
    | none =>
      rw [hp, foldl_bind_none _ (fun a => rfl)] at h
      exact absurd h (by simp)
    | some m =>
      rw [hp] at h
      have hm : m ≠ [] := unloadPass_some_ne_nil cnt tbl m htbl hp
      exact ih m r hm h

theorem unloadAll_nil (rounds : List (String → Nat)) :
    unloadAll rounds [] = some [] := by
  induction rounds with
  | nil => rfl
  | cons cnt rest ih =>
    rw [unloadAll, List.foldl_cons]
    have hstep : (some ([] : List (String × PluginRec))).bind
        (fun t => if t.isEmpty then some t else unloadPass cnt t) = some [] := by
      simp
    rw [hstep]
    exact ih

/-! Claim theorems. -/

/-- Counterexample for C2: the claimed "at most one successful launch
even under concurrent callers" is false in the source.  `task::run_once`
performs the guard read `is_once_ || !fn_` and the store
`is_once_ = true` as two separate atomic operations with no exchange,
and `storage::run_once` holds only a shared lock, so the interleaving
`test_A; test_B; body_A; body_B` of two overlapping callers is legal.
On a fresh "boot" task both guard reads see the clear flag (the shared
state is unchanged between them), and then both bodies launch, each
returning a valid handle.  The final conjunct ties the decomposed
test/body pair to `run_once` itself on this input. -/
theorem C2_concurrent_double_launch_counterexample :
    Task.runOnceTest ⟨0, "boot", "", some 7, false⟩ = true ∧
    (Task.runOnceBody 1 ⟨0, "boot", "", some 7, false⟩).1 = some 7 ∧
    (Task.runOnceBody 2 (Task.runOnceBody 1 ⟨0, "boot", "", some 7, false⟩).2).1 = some 7 ∧
    Task.run_once 1 ⟨0, "boot", "", some 7, false⟩
      = (if Task.runOnceTest ⟨0, "boot", "", some 7, false⟩ then
           Task.runOnceBody 1 ⟨0, "boot", "", some 7, false⟩
         else (none, ⟨0, "boot", "", some 7, false⟩)) := by
  refine ⟨by decide, by decide, by decide, by decide⟩

/-- C2 (amended): once a `run_once` call has returned a valid handle,
the once-flag is set, and every subsequent sequential call — `run_once`
or plain `run` — on that task observes the flag and returns the empty
handle (so `dispatch_once` twice in sequence yields valid then empty);
in general any task with a set once-flag yields the empty handle and an
unchanged task from both entry points.  The at-most-one-launch guarantee
holds only for non-overlapping callers: the flag is not set by an atomic
exchange, so overlapping callers may both launch (see the
counterexample). -/
theorem C2_run_once_at_most_one_launch (t : Task) (n1 n2 n3 : Int)
    (hv : ((t.run_once n1).1).isSome = true) :
    (t.run_once n1).2.is_once = true ∧
    ((t.run_once n1).2.run_once n2).1 = none ∧
    ((t.run_once n1).2.run n3).1 = none ∧
    (∀ (u : Task) (m : Int), u.is_once = true →
      u.run m = (none, u) ∧ u.run_once m = (none, u)) := by
  by_cases hc : (t.is_once || t.fn.isNone) = true
  · simp [Task.run_once, hc] at hv
  · simp only [Bool.not_eq_true] at hc
    refine ⟨?_, ?_, ?_, ?_⟩
    · simp [Task.run_once, hc]
    · simp [Task.run_once, hc]
    · simp [Task.run_once, Task.run, hc]
    · intro u m hu
      exact ⟨by simp [Task.run, hu], by simp [Task.run_once, hu]⟩

/-- Witness for C2: a concrete "boot" task with a non-null handler and a
clear once-flag launches validly the first time; applying the theorem
shows the second, sequential `run_once` yields the empty handle. -/
theorem C2_run_once_at_most_one_launch_witness :
    ((Task.run_once 1 ⟨0, "boot", "", some 7, false⟩).1).isSome = true ∧
    ((Task.run_once 1 ⟨0, "boot", "", some 7, false⟩).2.run_once 2).1 = none :=
  ⟨by decide,
   (C2_run_once_at_most_one_launch ⟨0, "boot", "", some 7, false⟩ 1 2 3 (by decide)).2.1⟩

/-- C4: `subscribe` is a no-op when the name is empty, the handler is
null, or the name is already present in the bucket (the original task —
handler and help — stays installed); it moreover preserves key
uniqueness in the bucket, and the `storage`-level subscribe on a bucket
that already holds the name leaves the whole storage unchanged. -/
theorem C4_subscribe_first_registration_wins (ts : Tasks) (now : Int)
    (nm : String) (fn : Option Int) (hlp : String) :
    (nm = "" ∨ fn = none → ts.subscribe now nm fn hlp = ts) ∧
    (∀ t0 : Task, ts.subscribers.lookup nm = some t0 →
      ts.subscribe now nm fn hlp = ts ∧
      (ts.subscribe now nm fn hlp).subscribers.lookup nm = some t0) ∧
    ((ts.subscribers.map Prod.fst).Nodup →
      ((ts.subscribe now nm fn hlp).subscribers.map Prod.fst).Nodup) ∧
    (∀ (s : Storage) (I : Nat) (t0 : Task),
      (s.bucket I).subscribers.lookup nm = some t0 →
      s.subscribe I now nm fn hlp = s) := by
  have hemp : ("" : String).isEmpty = true := rfl
  refine ⟨?_, ?_, ?_, ?_⟩
  · rintro (rfl | rfl) <;> simp [Tasks.subscribe, hemp]
  · intro t0 h
    refine ⟨tasks_subscribe_present_noop ts now nm fn hlp t0 h, ?_⟩
    rw [tasks_subscribe_present_noop ts now nm fn hlp t0 h]; exact h
  · intro hnd
    by_cases hc : (!nm.isEmpty && (ts.subscribers.lookup nm).isNone && fn.isSome) = true
    · have hlk : ts.subscribers.lookup nm = none := by
        rcases Bool.and_eq_true_iff.mp hc with ⟨hc1, _⟩
        rcases Bool.and_eq_true_iff.mp hc1 with ⟨_, hc3⟩
        exact Option.eq_none_of_isNone hc3
      simp only [Tasks.subscribe, hc, if_true]
      exact nodup_keys_insertSorted nm _ ts.subscribers hnd hlk
    · simp [Tasks.subscribe, hc, hnd]
  · intro s I t0 h
    unfold Storage.subscribe
    by_cases hI : I < s.maxArgs
    · rw [if_pos hI, tasks_subscribe_present_noop _ now nm fn hlp t0 h]
      have hset : s.buckets.set I (Storage.bucket I s) = s.buckets := by
        simp only [Storage.bucket]
        exact set_getD_self _ _ _
      rw [hset]
    · rw [if_neg hI]

/-- Witness for C4 (the hypotheses of the conjuncts discharged at a
concrete bucket): a registry already holding "sum2" is unchanged by a
second subscription of "sum2". -/
theorem C4_subscribe_first_registration_wins_witness :
    Tasks.subscribe 5 "sum2" (some 2) "again" ⟨[("sum2", ⟨0, "sum2", "", some 1, false⟩)]⟩
      = ⟨[("sum2", ⟨0, "sum2", "", some 1, false⟩)]⟩ ∧
    (Tasks.subscribe 5 "sum2" (some 2) "again"
        ⟨[("sum2", ⟨0, "sum2", "", some 1, false⟩)]⟩).subscribers.lookup "sum2"
      = some ⟨0, "sum2", "", some 1, false⟩ :=
  (C4_subscribe_first_registration_wins
    ⟨[("sum2", ⟨0, "sum2", "", some 1, false⟩)]⟩ 5 "sum2" (some 2) "again").2.1
    ⟨0, "sum2", "", some 1, false⟩ (by decide)

/-- C7: `storage::unsubscribe` refuses to remove a task exactly when it
is the arity-1 task named "service" whose once-flag is already set (the
storage is then unchanged); any other present task — a "service" task
whose once-flag is clear, or a fired once-task of another name or
arity — is removed from its bucket. -/
theorem C7_unsubscribe_service_guard (s : Storage) (I : Nat) (nm : String)
    (t : Task) (hI : I < s.maxArgs)
    (hfound : (s.bucket I).subscribers.lookup nm = some t)
    (hnd : ((s.bucket I).subscribers.map Prod.fst).Nodup) :
    ((I = 1 ∧ t.name = "service" ∧ t.is_once = true) →
      s.unsubscribeName I nm = s) ∧
    (¬(I = 1 ∧ t.name = "service" ∧ t.is_once = true) →
      ((s.unsubscribeName I nm).bucket I).subscribers.lookup nm = none) := by
  have hget : (s.bucket I).get nm = t := by simp [Tasks.get, hfound]
  have hlen : I < s.buckets.length := by
    by_contra hcon
    push_neg at hcon
    have hb : s.bucket I = emptyTasks := by
      simp [Storage.bucket, List.getD, List.getElem?_eq_none hcon]
    rw [hb] at hfound
    simp [emptyTasks] at hfound
  constructor
  · rintro ⟨rfl, hsvc, honce⟩
    unfold Storage.unsubscribeName
    rw [if_pos hI, hget]
    have : (t.is_service 1 && t.is_once) = true := by
      simp [Task.is_service, hsvc, honce]
    rw [this]
    simp
  · intro hng
    have hguard : (t.is_service I && t.is_once) = false := by
      cases hb : (t.is_service I && t.is_once)
      · rfl
      · exfalso
        rcases Bool.and_eq_true_iff.mp hb with ⟨hs, ho⟩
        rcases Bool.and_eq_true_iff.mp hs with ⟨hi, hn⟩
        exact hng ⟨eq_of_beq hi, eq_of_beq hn, ho⟩
    have hstep : s.unsubscribeName I nm
        = { s with buckets := s.buckets.set I ((s.bucket I).unsubscribeName nm) } := by
      unfold Storage.unsubscribeName
      rw [if_pos hI, hget, hguard]
      simp
    rw [hstep]
    simp only [Storage.bucket, getD_set_self _ _ _ _ hlen, Tasks.unsubscribeName]
    exact lookup_eraseP_self nm _ hnd

/-- Witness for C7: the fired arity-1 "service" task survives
`unsubscribe`, while a fired once-task of another name ("boot") in the
same bucket shape is removed. -/
theorem C7_unsubscribe_service_guard_witness :
    Storage.unsubscribeName 1 "service"
        ⟨6, 256, "k", [emptyTasks, ⟨[("service", ⟨0, "service", "", some 1, true⟩)]⟩]⟩
      = ⟨6, 256, "k", [emptyTasks, ⟨[("service", ⟨0, "service", "", some 1, true⟩)]⟩]⟩ ∧
    ((Storage.unsubscribeName 1 "boot"
        ⟨6, 256, "k", [emptyTasks, ⟨[("boot", ⟨0, "boot", "", some 1, true⟩)]⟩]⟩).bucket 1).subscribers.lookup "boot"
      = none :=
  ⟨(C7_unsubscribe_service_guard
      ⟨6, 256, "k", [emptyTasks, ⟨[("service", ⟨0, "service", "", some 1, true⟩)]⟩]⟩
      1 "service" ⟨0, "service", "", some 1, true⟩
      (by decide) (by decide) (by decide)).1 ⟨rfl, rfl, rfl⟩,
   (C7_unsubscribe_service_guard
      ⟨6, 256, "k", [emptyTasks, ⟨[("boot", ⟨0, "boot", "", some 1, true⟩)]⟩]⟩
      1 "boot" ⟨0, "boot", "", some 1, true⟩
      (by decide) (by decide) (by decide)).2 (by decide)⟩

/-- Counterexample for C1: the claimed per-cycle "evicted if and only
if eligible" fails in the forward direction.  With two adjacent
evictable plugins "a" and "b", the cycle erases "a", and the
`erase(it++)` inside `for (...;++it)` double-increments past "b", which
survives the cycle although `max_idle_` is nonzero, its idle is at
least `max_idle_` and it has no service task. -/
theorem C1_adjacent_eviction_skip_counterexample :
    (1 : Int) ≤ (⟨8, 256, "b", List.replicate 9 emptyTasks⟩ : Storage).idle 5 ∧
    (⟨8, 256, "b", List.replicate 9 emptyTasks⟩ : Storage).hasTask 1 "service" = false ∧
    Kernel.sweep 5
        ⟨true, 0, 1, ⟨8, 256, "kernel", List.replicate 9 emptyTasks⟩,
          [("a", ⟨true, ⟨8, 256, "a", List.replicate 9 emptyTasks⟩, 1⟩),
           ("b", ⟨true, ⟨8, 256, "b", List.replicate 9 emptyTasks⟩, 1⟩)]⟩
      = some ⟨true, 0, 1, ⟨8, 256, "kernel", List.replicate 9 emptyTasks⟩,
          [("b", ⟨true, ⟨8, 256, "b", List.replicate 9 emptyTasks⟩, 1⟩)]⟩ ∧
    ("b", (⟨true, ⟨8, 256, "b", List.replicate 9 emptyTasks⟩, 1⟩ : PluginRec)) ∈
      ([("b", ⟨true, ⟨8, 256, "b", List.replicate 9 emptyTasks⟩, 1⟩)] :
        List (String × PluginRec)) := by
  refine ⟨by decide, by decide, by decide, by decide⟩

/-- C1 (amended): in a sweep cycle that completes (no undefined
behavior), every removed entry was eligible — `max_idle_` nonzero,
aggregate idle at least `max_idle_`, no arity-1 "service" task — and no
entry is added; a plugin publishing an arity-1 "service" task survives
every completed sequence of sweep cycles; and with `max_idle_ = 0` a
cycle changes nothing.  The converse of the first part does not hold:
the entry after each erased one is skipped that cycle (see the
counterexample), and erasing the last entry is undefined behavior. -/
theorem C1_idle_sweep_eviction (k : Kernel) (now : Int) :
    (∀ k', k.sweep now = some k' →
      (∀ e ∈ k'.plugins, e ∈ k.plugins) ∧
      (∀ e ∈ k.plugins, e ∉ k'.plugins →
        (k.max_idle ≠ 0 ∧ k.max_idle ≤ e.2.store.idle now ∧
          e.2.store.hasTask 1 "service" = false))) ∧
    (∀ e ∈ k.plugins, e.2.store.hasTask 1 "service" = true →
      ∀ (nows : List Int) (k' : Kernel),
        k.sweepN nows = some k' → e ∈ k'.plugins) ∧
    (k.max_idle = 0 → k.sweep now = some k) := by
  have hcycle : ∀ (k0 : Kernel) (n : Int) (k1 : Kernel), k0.sweep n = some k1 →
      (∀ e ∈ k1.plugins, e ∈ k0.plugins) ∧
      (∀ e ∈ k0.plugins, e ∉ k1.plugins →
        (k0.max_idle ≠ 0 ∧ e.2.evictable k0.max_idle n = true)) := by
    intro k0 n k1 h
    unfold Kernel.sweep at h
    by_cases h0 : k0.max_idle = 0
    · rw [if_pos h0] at h
      have := Option.some.inj h
      subst this
      exact ⟨fun e he => he, fun e he hne => absurd he hne⟩
    · rw [if_neg h0] at h
      rcases Option.map_eq_some'.mp h with ⟨tbl, htbl, rfl⟩
      rcases sweepGo_sound k0.max_idle n k0.plugins tbl htbl with ⟨hsub, hrem⟩
      exact ⟨hsub, fun e he hne => ⟨h0, hrem e he hne⟩⟩
  refine ⟨?_, ?_, ?_⟩
  · intro k' h
    rcases hcycle k now k' h with ⟨hsub, hrem⟩
    refine ⟨hsub, fun e he hne => ?_⟩
    rcases hrem e he hne with ⟨h0, hev⟩
    have hev2 : k.max_idle ≤ e.2.store.idle now ∧
        e.2.store.hasTask 1 "service" = false := by
      simpa [PluginRec.evictable] using hev
    exact ⟨h0, hev2.1, hev2.2⟩
  · intro e he hsvc nows
    have hstep : ∀ (k0 : Kernel) (n : Int) (k1 : Kernel),
        e ∈ k0.plugins → k0.sweep n = some k1 → e ∈ k1.plugins := by
      intro k0 n k1 he0 h
      by_contra hne
      rcases (hcycle k0 n k1 h).2 e he0 hne with ⟨_, hev⟩
      simp [PluginRec.evictable, hsvc] at hev
    have hall : ∀ (ns : List Int) (k0 : Kernel), e ∈ k0.plugins →
        ∀ k1, k0.sweepN ns = some k1 → e ∈ k1.plugins := by
      intro ns
      induction ns with
      | nil =>
        intro k0 he0 k1 h
        have : k0 = k1 := Option.some.inj (by simpa [Kernel.sweepN] using h)
        subst this
        exact he0
      | cons n rest ih =>
        intro k0 he0 k1 h
        rw [Kernel.sweepN, List.foldl_cons, Option.some_bind] at h
        cases hs : k0.sweep n with
        | none =>
          rw [hs, foldl_bind_none _ (fun a => rfl)] at h
          exact absurd h (by simp)
        | some kmid =>
          rw [hs] at h
          exact ih kmid (hstep k0 n kmid he0 hs) k1 h
    exact hall nows k he
  · intro h0
    simp [Kernel.sweep, h0]

/-- Witness for C1 (amended): a service-bearing plugin survives a
concrete completed sweep sequence. -/
theorem C1_idle_sweep_eviction_witness :
    ("s", (⟨true, ⟨8, 256, "s",
        [emptyTasks, ⟨[("service", ⟨0, "service", "", some 1, false⟩)]⟩]⟩, 1⟩ : PluginRec)) ∈
      (⟨true, 0, 1, ⟨8, 256, "kernel", [emptyTasks]⟩,
        [("s", ⟨true, ⟨8, 256, "s",
          [emptyTasks, ⟨[("service", ⟨0, "service", "", some 1, false⟩)]⟩]⟩, 1⟩)]⟩ : Kernel).plugins :=
  (C1_idle_sweep_eviction
    ⟨true, 0, 1, ⟨8, 256, "kernel", [emptyTasks]⟩,
      [("s", ⟨true, ⟨8, 256, "s",
        [emptyTasks, ⟨[("service", ⟨0, "service", "", some 1, false⟩)]⟩]⟩, 1⟩)]⟩ 5).2.1
    ("s", ⟨true, ⟨8, 256, "s",
      [emptyTasks, ⟨[("service", ⟨0, "service", "", some 1, false⟩)]⟩]⟩, 1⟩)
    (by decide) (by decide) [5]
    ⟨true, 0, 1, ⟨8, 256, "kernel", [emptyTasks]⟩,
      [("s", ⟨true, ⟨8, 256, "s",
        [emptyTasks, ⟨[("service", ⟨0, "service", "", some 1, false⟩)]⟩]⟩, 1⟩)]⟩
    (by decide)

/-- Counterexample for C6: a plugin whose observed reference count is 3
(so not "exactly 1") still meets the idle-eviction condition and is
erased by the very sweep cycle the claim says must skip it — `loop_cb`
never consults the reference count.  A second, trailing entry keeps the
cycle clear of the end-iterator undefined behavior. -/
theorem C6_sweep_ignores_refcount_counterexample :
    ("q", (⟨true, ⟨8, 256, "q", List.replicate 9 emptyTasks⟩, 3⟩ : PluginRec)) ∈
      (⟨true, 0, 1, ⟨8, 256, "kernel", List.replicate 9 emptyTasks⟩,
        [("q", ⟨true, ⟨8, 256, "q", List.replicate 9 emptyTasks⟩, 3⟩),
         ("z", ⟨true, ⟨8, 256, "z", List.replicate 9 emptyTasks⟩, 1⟩)]⟩ : Kernel).plugins ∧
    (⟨true, ⟨8, 256, "q", List.replicate 9 emptyTasks⟩, 3⟩ : PluginRec).useCount ≠ 1 ∧
    (1 : Int) ≤ (⟨8, 256, "q", List.replicate 9 emptyTasks⟩ : Storage).idle 5 ∧
    (⟨8, 256, "q", List.replicate 9 emptyTasks⟩ : Storage).hasTask 1 "service" = false ∧
    Kernel.sweep 5
        ⟨true, 0, 1, ⟨8, 256, "kernel", List.replicate 9 emptyTasks⟩,
          [("q", ⟨true, ⟨8, 256, "q", List.replicate 9 emptyTasks⟩, 3⟩),
           ("z", ⟨true, ⟨8, 256, "z", List.replicate 9 emptyTasks⟩, 1⟩)]⟩
      = some ⟨true, 0, 1, ⟨8, 256, "kernel", List.replicate 9 emptyTasks⟩,
          [("z", ⟨true, ⟨8, 256, "z", List.replicate 9 emptyTasks⟩, 1⟩)]⟩ ∧
    ("q", (⟨true, ⟨8, 256, "q", List.replicate 9 emptyTasks⟩, 3⟩ : PluginRec)) ∉
      ([("z", ⟨true, ⟨8, 256, "z", List.replicate 9 emptyTasks⟩, 1⟩)] :
        List (String × PluginRec)) := by
  refine ⟨by decide, by decide, by decide, by decide, by decide, by decide⟩

/-- C6 (amended): the sweep's eviction decision never consults the
reference count: the condition `loop_cb` tests is invariant under any
change of the observed count, and an eligible entry at the head of the
table is erased in the same completed cycle whatever its count — there
is no refcount-gated skip-and-retry in `loop_cb` (entries are skipped
only by the iterator double-increment after an erase, which is
positional, not refcount-based). -/
theorem C6_sweep_refcount_never_consulted (k : Kernel) (now : Int) :
    (∀ (p : PluginRec) (mi n : Int) (c : Nat),
      PluginRec.evictable mi n { p with useCount := c }
        = PluginRec.evictable mi n p) ∧
    (∀ (nm : String) (pl : PluginRec) (rest : List (String × PluginRec))
       (k' : Kernel),
      k.plugins = (nm, pl) :: rest →
      k.max_idle ≠ 0 →
      k.max_idle ≤ pl.store.idle now →
      pl.store.hasTask 1 "service" = false →
      (k.plugins.map Prod.fst).Nodup →
      k.sweep now = some k' →
      (nm, pl) ∉ k'.plugins) := by
  refine ⟨fun p mi n c => rfl, ?_⟩
  intro nm pl rest k' hplug h0 hidle hsvc hnd h
  unfold Kernel.sweep at h
  rw [if_neg h0] at h
  rcases Option.map_eq_some'.mp h with ⟨tbl, htbl, rfl⟩
  have hev : pl.evictable k.max_idle now = true := by
    simp [PluginRec.evictable, hidle, hsvc]
  rw [hplug] at htbl
  have hev' : ((nm, pl) : String × PluginRec).2.evictable k.max_idle now = true := hev
  cases rest with
  | nil =>
    rw [sweepGo_evict_nil k.max_idle now (nm, pl) hev'] at htbl
    exact Option.noConfusion htbl
  | cons e2 rest2 =>
    rw [sweepGo_evict_cons k.max_idle now (nm, pl) e2 rest2 hev'] at htbl
    rcases Option.map_eq_some'.mp htbl with ⟨r2, hr2, rfl⟩
    have hnm : nm ∉ ((e2 :: rest2).map Prod.fst) := by
      rw [hplug] at hnd
      simp only [List.map_cons, List.nodup_cons] at hnd
      simpa using hnd.1
    intro hmem
    rcases List.mem_cons.mp hmem with heq | hmem2
    · subst heq
      exact hnm (by simp)
    · apply hnm
      have hin : (nm, pl) ∈ rest2 :=
        (sweepGo_sound k.max_idle now rest2 r2 hr2).1 _ hmem2
      exact List.mem_map.mpr ⟨(nm, pl), List.mem_cons_of_mem e2 hin, rfl⟩

/-- Witness for C6 (amended): same-cycle erasure of the head entry at
reference count 2, in a cycle that completes. -/
theorem C6_sweep_refcount_never_consulted_witness :
    ("h", (⟨true, ⟨8, 256, "h", []⟩, 2⟩ : PluginRec)) ∉
      (⟨true, 0, 1, ⟨8, 256, "kernel", [emptyTasks]⟩,
        [("t", ⟨true, ⟨8, 256, "t", []⟩, 1⟩)]⟩ : Kernel).plugins :=
  (C6_sweep_refcount_never_consulted
    ⟨true, 0, 1, ⟨8, 256, "kernel", [emptyTasks]⟩,
      [("h", ⟨true, ⟨8, 256, "h", []⟩, 2⟩), ("t", ⟨true, ⟨8, 256, "t", []⟩, 1⟩)]⟩
    9).2
    "h" ⟨true, ⟨8, 256, "h", []⟩, 2⟩ [("t", ⟨true, ⟨8, 256, "t", []⟩, 1⟩)]
    ⟨true, 0, 1, ⟨8, 256, "kernel", [emptyTasks]⟩,
      [("t", ⟨true, ⟨8, 256, "t", []⟩, 1⟩)]⟩
    (by decide) (by decide) (by decide) (by decide) (by decide) (by decide)

/-- Counterexample for C10: with the code's default arity limit
`MAX_PLUGINS_ARGS = 6`, the aggregate `storage::idle()` of a storage
whose buckets are all empty is `0`, not `INT_MAX` — the hard-coded
chain consults `idle<6>()`, which falls into the `I < L` else-branch
and contributes the constant `0`. -/
theorem C10_empty_storage_idle_counterexample :
    (∀ b ∈ (⟨6, 256, "s", List.replicate 7 emptyTasks⟩ : Storage).buckets,
      b.subscribers = []) ∧
    Storage.idle 0 ⟨6, 256, "s", List.replicate 7 emptyTasks⟩ = 0 ∧
    Storage.idle 0 ⟨6, 256, "s", List.replicate 7 emptyTasks⟩ ≠ intMax := by
  refine ⟨by decide, by decide, by decide⟩

/-- C10 (amended): a `tasks` container with no subscribed tasks reports
`INT_MAX` idle; a storage whose buckets are all empty reports `INT_MAX`
aggregate idle provided its configured arity limit exceeds 6 (as in the
documented builds with `MAX_PLUGINS_ARGS` of 8 or 12, but not at the
code default 6); under the same proviso a loaded plugin with no tasks is
eligible for idle eviction on the first sweep whenever `max_idle_` is
positive — it satisfies `evictable`, the condition `loop_cb` tests
before erasing (whether the cycle actually erases it additionally
depends on the erase loop's iterator behavior, see C1). -/
theorem C10_empty_idle_amended (now : Int) :
    (∀ ts : Tasks, ts.subscribers = [] → ts.idle now = intMax) ∧
    (∀ s : Storage, 6 < s.maxArgs → (∀ b ∈ s.buckets, b.subscribers = []) →
      s.idle now = intMax) ∧
    (∀ (k : Kernel) (e : String × PluginRec), e ∈ k.plugins →
      6 < e.2.store.maxArgs → (∀ b ∈ e.2.store.buckets, b.subscribers = []) →
      0 < k.max_idle → k.max_idle ≤ intMax →
      e.2.evictable k.max_idle now = true) := by
  have htasks : ∀ ts : Tasks, ts.subscribers = [] → ts.idle now = intMax := by
    intro ts h
    simp [Tasks.idle, h, idleFold]
  have hbempty : ∀ (s : Storage), (∀ b ∈ s.buckets, b.subscribers = []) →
      ∀ I : Nat, (s.bucket I).subscribers = [] := by
    intro s hb I
    unfold Storage.bucket List.getD
    cases hx : s.buckets.get? I with
    | none => rfl
    | some b => exact hb b (List.get?_mem hx)
  have hstore : ∀ s : Storage, 6 < s.maxArgs →
      (∀ b ∈ s.buckets, b.subscribers = []) → s.idle now = intMax := by
    intro s h6 hb
    unfold Storage.idle
    apply idleFold_all_eq
    intro x hx
    rcases List.mem_map.mp hx with ⟨I, hIr, rfl⟩
    have hI6 : I < 7 := List.mem_range.mp hIr
    unfold Storage.idleAt
    rw [if_pos (lt_of_lt_of_le hI6 h6)]
    exact htasks _ (hbempty s hb I)
  refine ⟨htasks, hstore, ?_⟩
  intro k e he h6 hb h0 hle
  have hidle : e.2.store.idle now = intMax := hstore _ h6 hb
  have hsvc : e.2.store.hasTask 1 "service" = false := by
    unfold Storage.hasTask
    rw [if_pos (by omega : 1 < e.2.store.maxArgs)]
    simp [Tasks.hasName, hbempty e.2.store hb 1]
  simp [PluginRec.evictable, hidle, hle, hsvc]

/-- Witness for C10 (amended): at arity limit 8 an all-empty storage
reports `INT_MAX`. -/
theorem C10_empty_idle_amended_witness :
    Storage.idle 0 ⟨8, 256, "s", List.replicate 9 emptyTasks⟩ = intMax :=
  (C10_empty_idle_amended 0).2.1 ⟨8, 256, "s", List.replicate 9 emptyTasks⟩
    (by decide) (by decide)

/-- Counterexample for C3: when the factory's plugin reports arity
limit 4 against the kernel's 6, `get_plugin` adds no table entry and
spawns no service thread, but the caller receives the non-null plugin
reference — not the absent reference the claim requires. -/
theorem C3_abi_mismatch_counterexample :
    (Kernel.get_plugin "p" (some ⟨false, ⟨4, 256, "p", List.replicate 5 emptyTasks⟩, 1⟩)
        ⟨true, 0, 10, ⟨6, 256, "kernel", List.replicate 7 emptyTasks⟩, []⟩).ret ≠ none ∧
    (Kernel.get_plugin "p" (some ⟨false, ⟨4, 256, "p", List.replicate 5 emptyTasks⟩, 1⟩)
        ⟨true, 0, 10, ⟨6, 256, "kernel", List.replicate 7 emptyTasks⟩, []⟩).kernel
      = ⟨true, 0, 10, ⟨6, 256, "kernel", List.replicate 7 emptyTasks⟩, []⟩ ∧
    (Kernel.get_plugin "p" (some ⟨false, ⟨4, 256, "p", List.replicate 5 emptyTasks⟩, 1⟩)
        ⟨true, 0, 10, ⟨6, 256, "kernel", List.replicate 7 emptyTasks⟩, []⟩).spawned = false := by
  refine ⟨by decide, by decide, by decide⟩

/-- C3 (amended): on an arity-limit mismatch the plugin is not
registered — the table is unchanged and no service thread is spawned —
but the caller receives the factory's (non-null) plugin instance rather
than an absent reference. -/
theorem C3_abi_mismatch_rejected_but_returned (k : Kernel) (nm : String)
    (pl : PluginRec)
    (hrun : k.do_work = true)
    (habsent : k.plugins.lookup nm = none)
    (hmis : pl.store.maxArgs ≠ k.store.maxArgs) :
    k.get_plugin nm (some pl) = ⟨some pl, k, false⟩ := by
  simp [Kernel.get_plugin, hrun, habsent, hmis]

/-- Witness for C3 (amended) at the concrete mismatch 4 versus 6. -/
theorem C3_abi_mismatch_rejected_but_returned_witness :
    Kernel.get_plugin "q" (some ⟨false, ⟨4, 256, "q", List.replicate 5 emptyTasks⟩, 1⟩)
        ⟨true, 0, 10, ⟨6, 512, "kernel", List.replicate 7 emptyTasks⟩, []⟩
      = ⟨some ⟨false, ⟨4, 256, "q", List.replicate 5 emptyTasks⟩, 1⟩,
         ⟨true, 0, 10, ⟨6, 512, "kernel", List.replicate 7 emptyTasks⟩, []⟩, false⟩ :=
  C3_abi_mismatch_rejected_but_returned
    ⟨true, 0, 10, ⟨6, 512, "kernel", List.replicate 7 emptyTasks⟩, []⟩ "q"
    ⟨false, ⟨4, 256, "q", List.replicate 5 emptyTasks⟩, 1⟩
    (by decide) (by decide) (by decide)

/-- C5: on a running kernel, `unload_plugin` clears the target's
running flag and then waits without timeout: while every observed
reference count stays above 1 the entry remains in the table (with its
flag cleared) and the call has not returned; the entry is erased exactly
when an observation of count 1 — the table's own reference — occurs. -/
theorem C5_unload_drain (k : Kernel) (nm : String) (pl : PluginRec)
    (counts : List Nat)
    (hrun : k.do_work = true)
    (hfound : k.plugins.lookup nm = some pl)
    (hnd : (k.plugins.map Prod.fst).Nodup)
    (hpos : ∀ c ∈ counts, 1 ≤ c) :
    ((∀ c ∈ counts, c ≠ 1) →
      (k.unload_plugin nm counts).2 = false ∧
      (k.unload_plugin nm counts).1.plugins.lookup nm
        = some { pl with do_work := false }) ∧
    ((∃ c ∈ counts, c = 1) →
      (k.unload_plugin nm counts).2 = true ∧
      (k.unload_plugin nm counts).1.plugins.lookup nm = none) ∧
    ((k.unload_plugin nm counts).1.plugins.lookup nm = none →
      ∃ c ∈ counts, c = 1) := by
  have hwait : (∀ c ∈ counts, c ≠ 1) →
      (k.unload_plugin nm counts).2 = false ∧
      (k.unload_plugin nm counts).1.plugins.lookup nm
        = some { pl with do_work := false } := by
    intro hne
    have hany : counts.any (fun c => !(decide (1 < c))) = false := by
      rw [List.any_eq_false]
      intro c hc
      have h1 : 1 ≤ c := hpos c hc
      have h2 : c ≠ 1 := hne c hc
      have : 1 < c := by omega
      simpa [this]
    have hres : k.unload_plugin nm counts
        = ({ k with plugins := setPlugin nm { pl with do_work := false } k.plugins },
           false) := by
      simp [Kernel.unload_plugin, hrun, hfound, hany]
    rw [hres]
    exact ⟨rfl, lookup_setPlugin_self nm _ k.plugins pl hfound⟩
  refine ⟨hwait, ?_, ?_⟩
  · rintro ⟨c, hc, rfl⟩
    have hany : counts.any (fun c => !(decide (1 < c))) = true := by
      rw [List.any_eq_true]
      exact ⟨1, hc, by simp⟩
    have hres : k.unload_plugin nm counts
        = ({ k with plugins := List.eraseP (fun e => e.1 == nm) (setPlugin nm { pl with do_work := false } k.plugins) }, true) := by
      simp [Kernel.unload_plugin, hrun, hfound, hany]
    rw [hres]
    refine ⟨rfl, ?_⟩
    apply lookup_eraseP_self
    rw [keys_setPlugin]
    exact hnd
  · intro hnone
    by_cases hex : ∃ c ∈ counts, c = 1
    · exact hex
    · exfalso
      push_neg at hex
      rcases hwait hex with ⟨_, hsome⟩
      rw [hnone] at hsome
      exact Option.noConfusion hsome

/-- Witness for C5: with observations `[3, 2]` (external holders
remain) the entry stays and the call is still blocked; with
observations `[2, 1]` the entry is erased once the count reaches 1. -/
theorem C5_unload_drain_witness :
    ((Kernel.unload_plugin "p" [3, 2]
        ⟨true, 0, 10, ⟨6, 256, "kernel", List.replicate 7 emptyTasks⟩,
          [("p", ⟨true, ⟨6, 256, "p", List.replicate 7 emptyTasks⟩, 3⟩)]⟩).2 = false ∧
      (Kernel.unload_plugin "p" [3, 2]
        ⟨true, 0, 10, ⟨6, 256, "kernel", List.replicate 7 emptyTasks⟩,
          [("p", ⟨true, ⟨6, 256, "p", List.replicate 7 emptyTasks⟩, 3⟩)]⟩).1.plugins.lookup "p"
        = some ⟨false, ⟨6, 256, "p", List.replicate 7 emptyTasks⟩, 3⟩) ∧
    (Kernel.unload_plugin "p" [2, 1]
        ⟨true, 0, 10, ⟨6, 256, "kernel", List.replicate 7 emptyTasks⟩,
          [("p", ⟨true, ⟨6, 256, "p", List.replicate 7 emptyTasks⟩, 3⟩)]⟩).1.plugins.lookup "p"
      = none :=
  ⟨(C5_unload_drain
      ⟨true, 0, 10, ⟨6, 256, "kernel", List.replicate 7 emptyTasks⟩,
        [("p", ⟨true, ⟨6, 256, "p", List.replicate 7 emptyTasks⟩, 3⟩)]⟩ "p"
      ⟨true, ⟨6, 256, "p", List.replicate 7 emptyTasks⟩, 3⟩ [3, 2]
      (by decide) (by decide) (by decide) (by decide)).1 (by decide),
   ((C5_unload_drain
      ⟨true, 0, 10, ⟨6, 256, "kernel", List.replicate 7 emptyTasks⟩,
        [("p", ⟨true, ⟨6, 256, "p", List.replicate 7 emptyTasks⟩, 3⟩)]⟩ "p"
      ⟨true, ⟨6, 256, "p", List.replicate 7 emptyTasks⟩, 3⟩ [2, 1]
      (by decide) (by decide) (by decide) (by decide)).2.1 ⟨1, by decide, rfl⟩).2⟩

/-- C8: the claimed behavior against the code's actual drain loop.
`stop` on a kernel that is not running is a no-op, and on a running
kernel it blocks until the sweep loop signals `expiry_` — those parts
hold.  But the drain can reach the empty table only when no plugin is
loaded: a pass of `unload_plugins` over a non-empty table yields either
a non-empty table (something kept or skipped) or the undefined-behavior
execution (erasing the final entry makes the `for` header increment the
end iterator — an infinite loop on libstdc++).  So with an empty table
`stop` returns stopped-with-cleared-once-flags as the claim says, and
with any loaded plugin `stop` never returns normally. -/
theorem C8_stop_drain_never_completes (k : Kernel) (obs : List Bool)
    (rounds : List (String → Nat)) :
    (k.do_work = false → k.stop obs rounds = some k) ∧
    (k.do_work = true → obs.any id = false → k.stop obs rounds = none) ∧
    (k.do_work = true → obs.any id = true → k.plugins = [] →
      k.stop obs rounds
        = some { k with do_work := false, plugins := [], store := k.store.clear_once } ∧
      ∀ b ∈ (k.store.clear_once).buckets, ∀ p ∈ b.subscribers,
        p.2.is_once = false) ∧
    (k.do_work = true → k.plugins ≠ [] → k.stop obs rounds = none) := by
  refine ⟨?_, ?_, ?_, ?_⟩
  · intro h; simp [Kernel.stop, h]
  · intro h hobs; simp [Kernel.stop, h, hobs]
  · intro hrun hobs hplug
    constructor
    · simp [Kernel.stop, hrun, hobs, hplug, unloadAll_nil]
    · intro b hb p hp
      simp only [Storage.clear_once, List.mem_map] at hb
      rcases hb with ⟨b0, _, rfl⟩
      simp only [Tasks.clear_once, List.mem_map] at hp
      rcases hp with ⟨p0, _, rfl⟩
      rfl
  · intro hrun hplug
    unfold Kernel.stop
    rw [hrun]
    by_cases hobs : obs.any id = true
    · rw [if_pos hobs]
      cases hall : unloadAll rounds k.plugins with
      | none => simp
      | some tbl =>
        have htbl : tbl ≠ [] := unloadAll_some_ne_nil rounds k.plugins tbl hplug hall
        have hemp : tbl.isEmpty = false := by
          cases tbl with
          | nil => exact absurd rfl htbl
          | cons a t => rfl
        simp [hemp]
    · have hobs' : obs.any id = false := by simpa using hobs
      simp [hobs']

/-- Witness for C8: with no plugin loaded, `stop` returns the stopped
kernel with the fired service task's once-flag cleared; with one loaded
plugin — even fully drained, `use_count()` already 1 — `stop` has no
normal return. -/
theorem C8_stop_drain_never_completes_witness :
    Kernel.stop [true] []
        ⟨true, 0, 10, ⟨6, 256, "kernel",
          [⟨[("service", ⟨0, "service", "", some 5, true⟩)]⟩]⟩, []⟩
      = some ⟨false, 0, 10, ⟨6, 256, "kernel",
          [⟨[("service", ⟨0, "service", "", some 5, false⟩)]⟩]⟩, []⟩ ∧
    Kernel.stop [true] [fun s => 1]
        ⟨true, 0, 10, ⟨6, 256, "kernel", [emptyTasks]⟩,
          [("p", ⟨true, ⟨6, 256, "p", [emptyTasks]⟩, 1⟩)]⟩ = none :=
  ⟨((C8_stop_drain_never_completes
      ⟨true, 0, 10, ⟨6, 256, "kernel",
        [⟨[("service", ⟨0, "service", "", some 5, true⟩)]⟩]⟩, []⟩ [true] []).2.2.1
      (by decide) (by decide) (by decide)).1,
   (C8_stop_drain_never_completes
      ⟨true, 0, 10, ⟨6, 256, "kernel", [emptyTasks]⟩,
        [("p", ⟨true, ⟨6, 256, "p", [emptyTasks]⟩, 1⟩)]⟩ [true] [fun s => 1]).2.2.2
      (by decide) (by decide)⟩

/-- C9: the `load_dll` candidate list is, in order, the caller-supplied
directories, then the fixed conventional directories, then the `PATH`
directories (with the appended `../lib/` suffix), then the caller x
`PATH` combinations; the search returns the first `(directory, entry)`
pair whose filename matches the platform pattern and whose path loads;
a successful load records exactly that resolved path as `filename()`;
and concretely, a search path holding `libfoo.so.1.2` makes
`load("foo", path)` succeed with that file's path recorded. -/
theorem C9_library_search (path0 pathEnv name0 : String) (env : FsEnv) :
    (path0 ≠ "" → candidateDirs path0 pathEnv =
      ((explode path0).map (fun d => slashify (d ++ "/")))
      ++ (([".", "lib", "plugins", "../lib", "../plugins", "../lib/plugins"]).map
            (fun d => slashify (d ++ "/")))
      ++ ((explode pathEnv).map (fun d => slashify (d ++ "/" ++ "../lib/")))
      ++ (((explode path0).flatMap (fun p0 => (explode pathEnv).map
            (fun p2 => p2 ++ "/" ++ "../lib/" ++ p0))).map
              (fun d => slashify (d ++ "/")))) ∧
    (load_dll name0 path0 env = (loadHits name0 path0 env).head?) ∧
    (∀ f, load_dll name0 path0 env = some f →
      SharedLib.load name0 path0 env = ⟨true, f⟩) ∧
    (SharedLib.load "foo" "mydir"
        ⟨fun d => if d = "mydir/" then some [("libfoo.so.1.2", true)] else none,
         fun _ => true, ""⟩
      = ⟨true, "mydir/libfoo.so.1.2"⟩) := by
  refine ⟨?_, ?_, ?_, by decide⟩
  · intro h
    have hne : path0.isEmpty = false := by
      cases hx : path0.isEmpty
      · rfl
      · exact absurd ((String.isEmpty_iff path0).mp hx) h
    have hfix : explode fixedPathStr
        = [".", "lib", "plugins", "../lib", "../plugins", "../lib/plugins"] := by decide
    simp only [candidateDirs, hne, Bool.false_eq_true, if_false, explode_append,
      hfix, List.map_append, List.append_assoc]
  · have hdir : ∀ d, tryDir env (nameMatches (libName name0)) d
        = (match env.dirs d with
           | none => []
           | some entries => entries.filterMap (fun (e : String × Bool) =>
               if e.2 && nameMatches (libName name0) e.1 && env.loadable (d ++ e.1) then
                 some (d ++ e.1)
               else none)).head? := by
      intro d
      unfold tryDir
      cases env.dirs d with
      | none => rfl
      | some es => exact findSome?_eq_head?_filterMap _ es
    unfold load_dll loadHits
    rw [head?_flatMap, funext hdir]
  · intro f hf
    unfold SharedLib.load
    rw [hf]

/-- Witness for C9: the decomposition of the candidate list at the
concrete caller path "mydir" with an empty `PATH`. -/
theorem C9_library_search_witness :
    candidateDirs "mydir" "" =
      ((explode "mydir").map (fun d => slashify (d ++ "/")))
      ++ (([".", "lib", "plugins", "../lib", "../plugins", "../lib/plugins"]).map
            (fun d => slashify (d ++ "/")))
      ++ ((explode "").map (fun d => slashify (d ++ "/" ++ "../lib/")))
      ++ (((explode "mydir").flatMap (fun p0 => (explode "").map
            (fun p2 => p2 ++ "/" ++ "../lib/" ++ p0))).map
              (fun d => slashify (d ++ "/"))) :=
  (C9_library_search "mydir" "" "foo" ⟨fun _ => none, fun _ => false, ""⟩).1
    (by decide)

end Micro
